import Mathlib

/-!
# tink-docker: a verification development

A shallow embedding of `tink-docker/main.go` and proofs of its behaviour.

* Go strings are Lean `String`s (text that is valid UTF-8; the byte `=` on
  which the program splits occurs in such text only as the character `=`).
* A Go `error` is `Option GoError` (`none` is `nil`).
* Code that talks to the outside world (spawning processes, the filesystem,
  sleeping, printing) is embedded in a writer-style monad `M` that records every
  effect in order; the outcome of each external call is supplied by the caller
  of the embedded function, so that the theorems quantify over all outcomes.
* A run-time panic (index out of range, nil dereference, `panic(err)`) is
  an explicit result.
-/

namespace TinkDocker

/-! ## Strings -/

/-- Pieces of a character sequence between occurrences of a one-character
separator: the behaviour of Go's `strings.Split` for a separator of length one.
The result is never empty, and has one more element than there are
separators. -/
def splitChars (sep : Char) : List Char → List (List Char)
  | [] => [[]]
  | c :: cs =>
    if c = sep then [] :: splitChars sep cs
    else
      match splitChars sep cs with
      | [] => [[c]]
      | w :: ws => (c :: w) :: ws

namespace strings

/-- The call `strings.Split(s, sep)` of Go for a one-character `sep`. -/
def Split (s : String) (sep : Char) : List String :=
  (splitChars sep s.data).map String.mk

end strings

/-! ## Configuration and the kernel command line -/

/-- Go `type tinkConfig struct`; the zero value has every field empty. -/
structure tinkConfig where
  registry : String := ""
  registryUsername : String := ""
  registryPassword : String := ""
  baseURL : String := ""
  tinkerbell : String := ""
  deriving DecidableEq

/-- Body of the `for i := range cmdLines` loop of `parseCmdLine`, run on the
token `cmdLines[i]` with the configuration accumulated so far. `none` is the
run-time panic of an index out of range. -/
def parseCmdLineStep (cfg : tinkConfig) (tok : String) : Option tinkConfig :=
  let cmdLine := strings.Split tok '='
  if cmdLine.length = 0 then
    some cfg
  else do
    let cmd ← cmdLine[0]?
    if cmd = "docker_registry" then
      let v ← cmdLine[1]?
      pure { cfg with registry := v }
    else if cmd = "registry_username" then
      let v ← cmdLine[1]?
      pure { cfg with registryUsername := v }
    else if cmd = "registry_password" then
      let v ← cmdLine[1]?
      pure { cfg with registryPassword := v }
    else if cmd = "packet_base_url" then
      let v ← cmdLine[1]?
      pure { cfg with baseURL := v }
    else if cmd = "tinkerbell" then
      let v ← cmdLine[1]?
      pure { cfg with tinkerbell := v }
    else
      pure cfg

/-- Go `func parseCmdLine(cmdLines []string) (cfg tinkConfig)`: the loop body
folded over the tokens from the zero configuration. -/
def parseCmdLine (cmdLines : List String) : Option tinkConfig :=
  cmdLines.foldlM parseCmdLineStep {}

/-! ## Errors, processes and effects -/

/-- The dynamic classes of Go error values that the program tells apart:
`*exec.ExitError` (the child ran and exited unsuccessfully), an error for
which `os.IsNotExist` holds, and every other error. -/
inductive GoError where
  | exitError (code : Int)
  | notExist
  | other (msg : String)
  deriving DecidableEq

/-- A Go value of type `error`; `none` is `nil`. -/
abbrev error := Option GoError

/-- The type assertion `err.(*exec.ExitError)` succeeds. -/
def isExitError : error → Bool
  | some (.exitError _) => true
  | _ => false

namespace os

/-- Go `os.IsNotExist(err)`. -/
def IsNotExist : error → Bool
  | some .notExist => true
  | _ => false

/-- What the program reads of an `os.FileInfo`. -/
structure FileInfo where
  IsDir : Bool
  deriving DecidableEq

end os

/-- An `*exec.Cmd` as configured before it is started: executable, arguments
(without `argv[0]`), the standard-input payload when `cmd.Stdin` is set, and
whether standard output and error are forwarded to the parent's. -/
structure Cmd where
  path : String
  args : List String
  stdin : Option String := none
  stdout : Bool := false
  stderr : Bool := false
  deriving DecidableEq

/-- One externally visible effect. -/
inductive Event where
  | print (text : String)
  | writeFile (path : String) (data : String) (perm : Nat)
  | remove (path : String)
  | stat (path : String)
  | start (cmd : Cmd)
  | run (cmd : Cmd)
  | signal (cmd : Cmd) (sig : String)
  | wait (cmd : Cmd)
  | sleep (seconds : Nat)
  deriving DecidableEq

/-- Value carried by a run-time panic. -/
inductive PanicValue where
  | err (e : GoError)
  | nilDereference
  deriving DecidableEq

/-- How a computation ends: it returns a value, it is still waiting for an
external call whose outcome is not (yet) available, or it panics. -/
inductive Res (α : Type) where
  | ret (a : α)
  | blocked
  | panic (v : PanicValue)
  deriving DecidableEq

/-- A computation: its end and the effects it performed, oldest first. -/
structure M (α : Type) where
  result : Res α
  trace : List Event

namespace M

/-- Sequencing: the effects of the second computation follow those of the
first, and nothing follows a computation that did not return. -/
def bind {α β : Type} (m : M α) (f : α → M β) : M β :=
  match m.result with
  | .ret a => ⟨(f a).result, m.trace ++ (f a).trace⟩
  | .blocked => ⟨.blocked, m.trace⟩
  | .panic v => ⟨.panic v, m.trace⟩

instance : Monad M where
  pure a := ⟨.ret a, []⟩
  bind := M.bind

/-- A single effect that returns `a`. -/
def emit {α : Type} (e : Event) (a : α) : M α := ⟨.ret a, [e]⟩

end M

/-- Go `panic(v)`. -/
def goPanic {α : Type} (v : PanicValue) : M α := ⟨.panic v, []⟩

namespace fmt

/-- Go `fmt.Println(s)` for one string argument. -/
def Println (s : String) : M Unit := M.emit (.print (s ++ "\n")) ()

/-- Go `fmt.Printf` after formatting. -/
def Printf (formatted : String) : M Unit := M.emit (.print formatted) ()

end fmt

namespace ioutil

/-- Go `ioutil.WriteFile(path, data, perm)`; `r` is what the call returns. -/
def WriteFile (r : error) (path data : String) (perm : Nat) : M error :=
  M.emit (.writeFile path data perm) r

end ioutil

namespace os

/-- Go `os.Remove(path)`; `r` is what the call returns. -/
def Remove (r : error) (path : String) : M error := M.emit (.remove path) r

/-- Go `os.Stat(path)`; `r` is the pair the call returns. -/
def Stat (r : Option FileInfo × error) (path : String) : M (Option FileInfo × error) :=
  M.emit (.stat path) r

end os

namespace time

/-- Go `time.Sleep(n * time.Second)`. -/
def Sleep (seconds : Nat) : M Unit := M.emit (.sleep seconds) ()

end time

namespace Cmd

/-- Go `cmd.Run()`: spawn and wait. `outcome` is what the call returns, or
`none` when the child has not finished. -/
def Run (outcome : Option error) (cmd : Cmd) : M error :=
  match outcome with
  | some r => M.emit (.run cmd) r
  | none => ⟨.blocked, [.run cmd]⟩

/-- Go `cmd.Start()`; `r` is what the call returns. -/
def Start (r : error) (cmd : Cmd) : M error := M.emit (.start cmd) r

/-- Go `cmd.Process.Signal(sig)`; `r` is what the call returns. -/
def Signal (r : error) (cmd : Cmd) (sig : String) : M error := M.emit (.signal cmd sig) r

/-- Go `cmd.Wait()`; `r` is what the call returns. -/
def Wait (r : error) (cmd : Cmd) : M error := M.emit (.wait cmd) r

end Cmd

/-! ## The docker client calls -/

/-- Go `func installDockerPlugin(dockerHost, alias, image string, arguments ...string) error`
(`pluginAlias` is the parameter `alias`); `r` is the outcome of `cmd.Run()`. -/
def installDockerPlugin (r : error) (dockerHost pluginAlias image : String)
    (arguments : List String) : M error :=
  let cmd : Cmd :=
    { path := "/usr/local/bin/docker"
      args := [ "--host", dockerHost, "plugin", "install", "--grant-all-permissions",
                "--alias", pluginAlias, image ] ++ arguments
      stdout := true
      stderr := true }
  cmd.Run (some r)

/-- Go `func dockerLogin(dockerHost, registry, username, password string) error`;
`r` is the outcome of `cmd.Run()`. -/
def dockerLogin (r : error) (dockerHost registry username password : String) : M error :=
  let cmd : Cmd :=
    { path := "/usr/local/bin/docker"
      args := [ "--host", dockerHost, "login", "--username", username,
                "--password-stdin", registry ]
      stdin := some password
      stdout := true
      stderr := true }
  cmd.Run (some r)

/-- The status probe built in each iteration of `waitForDockerDaemon`. -/
def dockerInfoCmd (dockerHost : String) : Cmd :=
  { path := "/usr/local/bin/docker"
    args := [ "--host", dockerHost, "info", "--format", "\x7b\x7b.ServerVersion\x7d\x7d" ] }

/-- Go `func waitForDockerDaemon(dockerHost string) error`. `probes` lists the
outcomes of the successive `cmd.Run()` calls of the loop; when they are used
up the last probe spawned has no outcome and the poller has not returned. -/
def waitForDockerDaemon : List error → String → M error
  | [], dockerHost => (dockerInfoCmd dockerHost).Run none
  | r :: probes, dockerHost => do
    let cmd := dockerInfoCmd dockerHost
    let err ← cmd.Run (some r)
    if err = none then
      return none
    if isExitError err then
      time.Sleep 1
      waitForDockerDaemon probes dockerHost
    else
      return err

/-! ## The transient daemon -/

/-- Outcomes of the external calls of one run of `installDockerPlugins`, in
the order the calls are made. -/
structure Env where
  writeFile : error
  start : error
  probes : List error
  login : error
  install : error
  signal : error
  wait : error
  remove : error

/-- The temporary daemon started by `installDockerPlugins`. -/
def dockerdCmd (dockerConfigPath dockerHost : String) : Cmd :=
  { path := "/usr/local/bin/dockerd"
    args := [ "--config-file", dockerConfigPath, "--host", dockerHost ]
    stdout := true
    stderr := true }

/-- Go `func installDockerPlugins(registry, registryUsername, registryPassword string) error`. -/
def installDockerPlugins (env : Env) (registry registryUsername registryPassword : String) :
    M error := do
  let dockerHost := "unix:///dockerd.install.sock"
  let dockerConfigPath := "/dockerd.install.json"
  let err ← ioutil.WriteFile env.writeFile dockerConfigPath "\x7b\x7d" 0o644
  if err ≠ none then
    return err
  fmt.Println "Starting up the temporary docker daemon"
  let cmd := dockerdCmd dockerConfigPath dockerHost
  let err ← cmd.Start env.start
  if err ≠ none then
    return err
  let err ← waitForDockerDaemon env.probes dockerHost
  if err ≠ none then
    return err
  fmt.Printf ("Logging in the " ++ registry ++ " registry\n")
  let err ← dockerLogin env.login dockerHost registry registryUsername registryPassword
  if err ≠ none then
    return err
  fmt.Println "Installing the loki log driver plugin"
  let err ← installDockerPlugin env.install dockerHost "loki"
    (registry ++ "/grafana/loki-docker-driver:2.3.0") ["LOG_LEVEL=info"]
  if err ≠ none then
    return err
  fmt.Println "Waiting for the plugins to be ready"
  time.Sleep 15
  fmt.Println "Shutting down the temporary docker daemon"
  let _ ← cmd.Signal env.signal "SIGTERM"
  let err ← cmd.Wait env.wait
  if err ≠ none then
    return err
  let _ ← os.Remove env.remove dockerConfigPath
  fmt.Println "Waiting for the containerd and docker plugins to shutdown"
  time.Sleep 15
  return none

/-! ## The reboot watcher -/

/-- Go `func fileExists(filename string) bool`; `r` is what `os.Stat` returns.
Calling `IsDir` on a nil `info` is a nil dereference. -/
def fileExists (r : Option os.FileInfo × error) (filename : String) : M Bool := do
  let (info, err) ← os.Stat r filename
  if os.IsNotExist err then
    return false
  match info with
  | some info => return !info.IsDir
  | none => goPanic .nilDereference

/-- The command spawned by `rebootWatch`. -/
def rebootCmd : Cmd := { path := "/sbin/reboot", args := [], stdout := true, stderr := true }

/-- The `for` loop of `rebootWatch`. `stats` lists what the successive
`os.Stat` calls return; when they are used up the watcher is still polling.
`reboot` is the outcome of running the reboot command. -/
def rebootWatchLoop (reboot : error) : List (Option os.FileInfo × error) → M Unit
  | [] => ⟨.blocked, [.stat "/worker/reboot"]⟩
  | r :: stats => do
    if (← fileExists r "/worker/reboot") then
      let cmd := rebootCmd
      let err ← cmd.Run (some reboot)
      match err with
      | some e => goPanic (.err e)
      | none => return ()
    else
      time.Sleep 1
      rebootWatchLoop reboot stats

/-- Go `func rebootWatch()`. -/
def rebootWatch (reboot : error) (stats : List (Option os.FileInfo × error)) : M Unit := do
  fmt.Println "Starting Reboot Watcher"
  rebootWatchLoop reboot stats
  fmt.Println "Rebooting"

/-! ## Specification vocabulary -/

/-- The effects of `n` failed readiness probes: each probe is followed by a
one-second sleep. -/
def retryTrace (dockerHost : String) : Nat → List Event
  | 0 => []
  | n + 1 => .run (dockerInfoCmd dockerHost) :: .sleep 1 :: retryTrace dockerHost n

namespace Event

/-- The event is a file write. -/
def isWriteFile : Event → Bool
  | .writeFile _ _ _ => true
  | _ => false

/-- The event is a file removal. -/
def isRemove : Event → Bool
  | .remove _ => true
  | _ => false

/-- The event is an asynchronous process start. -/
def isStart : Event → Bool
  | .start _ => true
  | _ => false

/-- The event is a signal sent to a process. -/
def isSignal : Event → Bool
  | .signal _ _ => true
  | _ => false

/-- The event is a wait on a started process. -/
def isWait : Event → Bool
  | .wait _ => true
  | _ => false

/-- The event is a synchronous run of a process. -/
def isRun : Event → Bool
  | .run _ => true
  | _ => false

end Event

/-- The login command of `dockerLogin`. -/
def dockerLoginCmd (dockerHost registry username password : String) : Cmd :=
  { path := "/usr/local/bin/docker"
    args := [ "--host", dockerHost, "login", "--username", username,
              "--password-stdin", registry ]
    stdin := some password
    stdout := true
    stderr := true }

/-- The plugin-install command of `installDockerPlugin`. -/
def dockerPluginInstallCmd (dockerHost pluginAlias image : String) (arguments : List String) :
    Cmd :=
  { path := "/usr/local/bin/docker"
    args := [ "--host", dockerHost, "plugin", "install", "--grant-all-permissions",
              "--alias", pluginAlias, image ] ++ arguments
    stdout := true
    stderr := true }

/-- Effects of `installDockerPlugins` up to and including the readiness probe
that exits cleanly after `n` non-zero exits. -/
def startupTrace (n : Nat) : List Event :=
  [ .writeFile "/dockerd.install.json" "\x7b\x7d" 0o644,
    .print "Starting up the temporary docker daemon\n",
    .start (dockerdCmd "/dockerd.install.json" "unix:///dockerd.install.sock") ] ++
  retryTrace "unix:///dockerd.install.sock" n ++
  [ .run (dockerInfoCmd "unix:///dockerd.install.sock") ]

/-- Effects of the login step. -/
def loginTrace (registry registryUsername registryPassword : String) : List Event :=
  [ .print ("Logging in the " ++ registry ++ " registry\n"),
    .run (dockerLoginCmd "unix:///dockerd.install.sock" registry registryUsername
      registryPassword) ]

/-- Effects of `installDockerPlugins` after a successful login when every
later step succeeds. -/
def teardownTrace (registry : String) : List Event :=
  [ .print "Installing the loki log driver plugin\n",
    .run (dockerPluginInstallCmd "unix:///dockerd.install.sock" "loki"
      (registry ++ "/grafana/loki-docker-driver:2.3.0") ["LOG_LEVEL=info"]),
    .print "Waiting for the plugins to be ready\n",
    .sleep 15,
    .print "Shutting down the temporary docker daemon\n",
    .signal (dockerdCmd "/dockerd.install.json" "unix:///dockerd.install.sock") "SIGTERM",
    .wait (dockerdCmd "/dockerd.install.json" "unix:///dockerd.install.sock"),
    .remove "/dockerd.install.json",
    .print "Waiting for the containerd and docker plugins to shutdown\n",
    .sleep 15 ]

/-- The keys that `parseCmdLine` recognises. -/
def recognizedKeys : List String :=
  ["docker_registry", "registry_username", "registry_password", "packet_base_url", "tinkerbell"]

/-- The field of the configuration that belongs to each recognised key. -/
def fieldTable : List (String × (tinkConfig → String)) :=
  [ ("docker_registry", tinkConfig.registry),
    ("registry_username", tinkConfig.registryUsername),
    ("registry_password", tinkConfig.registryPassword),
    ("packet_base_url", tinkConfig.baseURL),
    ("tinkerbell", tinkConfig.tinkerbell) ]

/-- The key of a token: its text before the first `=` (all of it when it has
no `=`). -/
def tokenKey (tok : String) : String :=
  String.mk (tok.data.takeWhile (fun c => c != '='))

/-- The text of a token between its first and its second `=` (up to the end
when it has only one `=`). -/
def tokenValue (tok : String) : String :=
  String.mk (((tok.data.dropWhile (fun c => c != '=')).drop 1).takeWhile (fun c => c != '='))

/-- What a poll of the reboot marker can observe. -/
inductive Marker where
  | absent
  | file
  | directory
  deriving DecidableEq

/-- What `os.Stat` returns for each observation of the marker. -/
def Marker.stat : Marker → Option os.FileInfo × error
  | .absent => (none, some .notExist)
  | .file => (some ⟨false⟩, none)
  | .directory => (some ⟨true⟩, none)

/-- The effects of `n` polls that do not find the marker: each `os.Stat` is
followed by a one-second sleep. -/
def markerPollTrace : Nat → List Event
  | 0 => []
  | n + 1 => .stat "/worker/reboot" :: .sleep 1 :: markerPollTrace n

/-! ## Basic facts about the effect monad -/

@[simp] theorem M.pure_result {α : Type} (a : α) : (pure a : M α).result = .ret a := rfl

@[simp] theorem M.pure_trace {α : Type} (a : α) : (pure a : M α).trace = [] := rfl

@[simp] theorem M.emit_bind {α β : Type} (e : Event) (a : α) (f : α → M β) :
    (M.emit e a >>= f) = ⟨(f a).result, e :: (f a).trace⟩ := rfl

@[simp] theorem M.pure_bind {α β : Type} (a : α) (f : α → M β) : (pure a >>= f) = f a := rfl

@[simp] theorem M.mk_bind_ret {α β : Type} (a : α) (tr : List Event) (f : α → M β) :
    ((⟨.ret a, tr⟩ : M α) >>= f) = ⟨(f a).result, tr ++ (f a).trace⟩ := rfl

@[simp] theorem M.mk_bind_blocked {α β : Type} (tr : List Event) (f : α → M β) :
    ((⟨.blocked, tr⟩ : M α) >>= f) = ⟨.blocked, tr⟩ := rfl

@[simp] theorem M.mk_bind_panic {α β : Type} (v : PanicValue) (tr : List Event) (f : α → M β) :
    ((⟨.panic v, tr⟩ : M α) >>= f) = ⟨.panic v, tr⟩ := rfl

/-! ## The readiness poller -/

theorem waitForDockerDaemon_nil (dockerHost : String) :
    waitForDockerDaemon [] dockerHost = ⟨.blocked, [.run (dockerInfoCmd dockerHost)]⟩ := rfl

theorem waitForDockerDaemon_cons_success (probes : List error) (dockerHost : String) :
    waitForDockerDaemon (none :: probes) dockerHost =
      ⟨.ret none, [.run (dockerInfoCmd dockerHost)]⟩ := rfl

theorem waitForDockerDaemon_cons_exit (r : error) (h : isExitError r = true)
    (probes : List error) (dockerHost : String) :
    waitForDockerDaemon (r :: probes) dockerHost =
      ⟨(waitForDockerDaemon probes dockerHost).result,
        .run (dockerInfoCmd dockerHost) :: .sleep 1 ::
          (waitForDockerDaemon probes dockerHost).trace⟩ := by
  cases r with
  | none => simp [isExitError] at h
  | some e =>
    simp [waitForDockerDaemon, Cmd.Run, h, time.Sleep]

theorem waitForDockerDaemon_cons_launch (e : GoError) (h : isExitError (some e) = false)
    (probes : List error) (dockerHost : String) :
    waitForDockerDaemon (some e :: probes) dockerHost =
      ⟨.ret (some e), [.run (dockerInfoCmd dockerHost)]⟩ := by
  simp [waitForDockerDaemon, Cmd.Run, h]

theorem waitForDockerDaemon_append (dockerHost : String) (pre : List error)
    (hpre : ∀ r ∈ pre, isExitError r = true) (rest : List error) :
    waitForDockerDaemon (pre ++ rest) dockerHost =
      ⟨(waitForDockerDaemon rest dockerHost).result,
        retryTrace dockerHost pre.length ++ (waitForDockerDaemon rest dockerHost).trace⟩ := by
  induction pre with
  | nil => simp [retryTrace]
  | cons r pre ih =>
    have hr : isExitError r = true := hpre r (List.mem_cons_self _ _)
    have ih' := ih (fun x hx => hpre x (List.mem_cons_of_mem _ hx))
    rw [List.cons_append, waitForDockerDaemon_cons_exit r hr, ih']
    simp [retryTrace]

theorem waitForDockerDaemon_never_exitError (probes : List error) (dockerHost : String)
    (c : Int) :
    (waitForDockerDaemon probes dockerHost).result ≠ .ret (some (.exitError c)) := by
  induction probes with
  | nil => simp [waitForDockerDaemon_nil]
  | cons r probes ih =>
    cases r with
    | none => simp [waitForDockerDaemon_cons_success]
    | some e =>
      by_cases h : isExitError (some e) = true
      · rw [waitForDockerDaemon_cons_exit _ h]; exact ih
      · have h' : isExitError (some e) = false := by simpa using h
        rw [waitForDockerDaemon_cons_launch e h']
        intro hc
        cases hc
        simp [isExitError] at h'

theorem waitForDockerDaemon_ready (dockerHost : String)
    (pre : List error) (hpre : ∀ r ∈ pre, isExitError r = true) (rest : List error) :
    waitForDockerDaemon (pre ++ none :: rest) dockerHost =
      ⟨.ret none, retryTrace dockerHost pre.length ++ [.run (dockerInfoCmd dockerHost)]⟩ := by
  rw [waitForDockerDaemon_append dockerHost pre hpre, waitForDockerDaemon_cons_success]

/-- Claim C2. The result of `waitForDockerDaemon` is decided by the first probe
outcome that is not a non-zero exit. After any run `pre` of non-zero exits,
each of which costs one probe and one 1-second sleep: a clean exit returns
`nil`; a launch failure `e` is returned as it is; in both cases the deciding
probe is the last effect, whatever outcomes would follow. On `pre` alone the
poller has spawned one more probe and has not returned. No non-zero exit is
ever returned as an error. -/
theorem waitForDockerDaemon_decided_by_first_non_exit (dockerHost : String)
    (pre : List error) (hpre : ∀ r ∈ pre, isExitError r = true) :
    (∀ rest, waitForDockerDaemon (pre ++ none :: rest) dockerHost =
        ⟨.ret none, retryTrace dockerHost pre.length ++ [.run (dockerInfoCmd dockerHost)]⟩) ∧
    (∀ e rest, isExitError (some e) = false →
      waitForDockerDaemon (pre ++ some e :: rest) dockerHost =
        ⟨.ret (some e), retryTrace dockerHost pre.length ++ [.run (dockerInfoCmd dockerHost)]⟩) ∧
    waitForDockerDaemon pre dockerHost =
        ⟨.blocked, retryTrace dockerHost pre.length ++ [.run (dockerInfoCmd dockerHost)]⟩ ∧
    (∀ probes c, (waitForDockerDaemon probes dockerHost).result ≠ .ret (some (.exitError c))) := by
  refine ⟨fun rest => ?_, fun e rest he => ?_, ?_, fun probes c => ?_⟩
  · rw [waitForDockerDaemon_append dockerHost pre hpre, waitForDockerDaemon_cons_success]
  · rw [waitForDockerDaemon_append dockerHost pre hpre, waitForDockerDaemon_cons_launch e he]
  · have h := waitForDockerDaemon_append dockerHost pre hpre []
    rw [List.append_nil] at h
    rw [h, waitForDockerDaemon_nil]
  · exact waitForDockerDaemon_never_exitError probes dockerHost c

theorem waitForDockerDaemon_decided_by_first_non_exit_witness :
    waitForDockerDaemon
        [some (.exitError 1), some (.exitError 125), none, some (.other "unused")] "unix:///s" =
      ⟨.ret none,
        [.run (dockerInfoCmd "unix:///s"), .sleep 1, .run (dockerInfoCmd "unix:///s"), .sleep 1,
          .run (dockerInfoCmd "unix:///s")]⟩ ∧
    waitForDockerDaemon
        [some (.exitError 1), some (.exitError 125), some (.other "exec: not found"), none]
        "unix:///s" =
      ⟨.ret (some (.other "exec: not found")),
        [.run (dockerInfoCmd "unix:///s"), .sleep 1, .run (dockerInfoCmd "unix:///s"), .sleep 1,
          .run (dockerInfoCmd "unix:///s")]⟩ ∧
    waitForDockerDaemon [some (.exitError 1), some (.exitError 125)] "unix:///s" =
      ⟨.blocked,
        [.run (dockerInfoCmd "unix:///s"), .sleep 1, .run (dockerInfoCmd "unix:///s"), .sleep 1,
          .run (dockerInfoCmd "unix:///s")]⟩ := by
  have hpre : ∀ r ∈ [some (GoError.exitError 1), some (GoError.exitError 125)],
      isExitError r = true := by decide
  have h := waitForDockerDaemon_decided_by_first_non_exit "unix:///s" _ hpre
  exact ⟨h.1 [some (.other "unused")], h.2.1 (.other "exec: not found") [none] rfl, h.2.2.1⟩

/-! ## The transient daemon lifecycle -/

theorem dockerLogin_eq (r : error) (dockerHost registry username password : String) :
    dockerLogin r dockerHost registry username password =
      ⟨.ret r, [.run (dockerLoginCmd dockerHost registry username password)]⟩ := rfl

theorem installDockerPlugin_eq (r : error) (dockerHost pluginAlias image : String)
    (arguments : List String) :
    installDockerPlugin r dockerHost pluginAlias image arguments =
      ⟨.ret r, [.run (dockerPluginInstallCmd dockerHost pluginAlias image arguments)]⟩ := rfl

theorem installDockerPlugins_run_success (env : Env)
    (registry registryUsername registryPassword : String) (pre rest : List error)
    (hw : env.writeFile = none) (hs : env.start = none)
    (hp : env.probes = pre ++ none :: rest) (hpre : ∀ r ∈ pre, isExitError r = true)
    (hl : env.login = none) (hi : env.install = none) (hwait : env.wait = none) :
    installDockerPlugins env registry registryUsername registryPassword =
      ⟨.ret none, startupTrace pre.length ++
        loginTrace registry registryUsername registryPassword ++ teardownTrace registry⟩ := by
  have hpoll := (waitForDockerDaemon_ready "unix:///dockerd.install.sock"
    pre hpre rest)
  simp [installDockerPlugins, ioutil.WriteFile, hw, hs, hp, hl, hi, hwait, fmt.Println,
    fmt.Printf, Cmd.Start, Cmd.Signal, Cmd.Wait, os.Remove, time.Sleep, hpoll,
    dockerLogin_eq, installDockerPlugin_eq, startupTrace, loginTrace, teardownTrace]

theorem installDockerPlugins_run_login_failure (env : Env)
    (registry registryUsername registryPassword : String) (pre rest : List error) (e : GoError)
    (hw : env.writeFile = none) (hs : env.start = none)
    (hp : env.probes = pre ++ none :: rest) (hpre : ∀ r ∈ pre, isExitError r = true)
    (hl : env.login = some e) :
    installDockerPlugins env registry registryUsername registryPassword =
      ⟨.ret (some e), startupTrace pre.length ++
        loginTrace registry registryUsername registryPassword⟩ := by
  have hpoll := (waitForDockerDaemon_ready "unix:///dockerd.install.sock"
    pre hpre rest)
  simp [installDockerPlugins, ioutil.WriteFile, hw, hs, hp, hl, fmt.Println,
    fmt.Printf, Cmd.Start, hpoll, dockerLogin_eq, startupTrace, loginTrace]

theorem countP_retryTrace (p : Event → Bool) (dockerHost : String)
    (hrun : p (.run (dockerInfoCmd dockerHost)) = false) (hsleep : p (.sleep 1) = false)
    (n : Nat) : (retryTrace dockerHost n).countP p = 0 := by
  induction n with
  | zero => simp [retryTrace]
  | succ n ih => simp [retryTrace, List.countP_cons, hrun, hsleep, ih]

theorem mem_retryTrace (dockerHost : String) (n : Nat) (ev : Event)
    (h : ev ∈ retryTrace dockerHost n) :
    ev = .run (dockerInfoCmd dockerHost) ∨ ev = .sleep 1 := by
  induction n with
  | zero => simp [retryTrace] at h
  | succ n ih =>
    simp only [retryTrace, List.mem_cons] at h
    rcases h with h | h | h
    · exact Or.inl h
    · exact Or.inr h
    · exact ih h

/-- Claim C3. When the config write, the daemon start, a readiness probe (after
any number of non-zero exits), the login, the plugin install and the wait all
succeed, `installDockerPlugins` returns `nil`; its effects contain exactly one
file write, one process start, one signal (SIGTERM to the daemon), one wait
and one file removal; the write of the config artifact comes before the start of the daemon and the
removal of the config artifact comes after the wait on the daemon. The
outcomes of the signal and of the removal are arbitrary. -/
theorem installDockerPlugins_all_steps_succeed (env : Env)
    (registry registryUsername registryPassword : String) (pre rest : List error)
    (hw : env.writeFile = none) (hs : env.start = none)
    (hp : env.probes = pre ++ none :: rest) (hpre : ∀ r ∈ pre, isExitError r = true)
    (hl : env.login = none) (hi : env.install = none) (hwait : env.wait = none) :
    (installDockerPlugins env registry registryUsername registryPassword).result = .ret none ∧
    (installDockerPlugins env registry registryUsername registryPassword).trace.countP
      Event.isWriteFile = 1 ∧
    (installDockerPlugins env registry registryUsername registryPassword).trace.countP
      Event.isStart = 1 ∧
    (installDockerPlugins env registry registryUsername registryPassword).trace.countP
      Event.isSignal = 1 ∧
    (installDockerPlugins env registry registryUsername registryPassword).trace.countP
      Event.isWait = 1 ∧
    (installDockerPlugins env registry registryUsername registryPassword).trace.countP
      Event.isRemove = 1 ∧
    Event.signal (dockerdCmd "/dockerd.install.json" "unix:///dockerd.install.sock") "SIGTERM" ∈
      (installDockerPlugins env registry registryUsername registryPassword).trace ∧
    (∃ a b c, (installDockerPlugins env registry registryUsername registryPassword).trace =
      a ++ Event.writeFile "/dockerd.install.json" "\x7b\x7d" 0o644 :: b ++
        Event.start (dockerdCmd "/dockerd.install.json" "unix:///dockerd.install.sock") :: c) ∧
    (∃ a b c, (installDockerPlugins env registry registryUsername registryPassword).trace =
      a ++ Event.wait (dockerdCmd "/dockerd.install.json" "unix:///dockerd.install.sock") :: b ++
        Event.remove "/dockerd.install.json" :: c) := by
  rw [installDockerPlugins_run_success env registry registryUsername registryPassword pre rest
    hw hs hp hpre hl hi hwait]
  have hc : ∀ p : Event → Bool, p (.run (dockerInfoCmd "unix:///dockerd.install.sock")) = false →
      p (.sleep 1) = false →
      (retryTrace "unix:///dockerd.install.sock" pre.length).countP p = 0 :=
    fun p h1 h2 => countP_retryTrace p _ h1 h2 _
  refine ⟨rfl, ?_, ?_, ?_, ?_, ?_, ?_, ?_, ?_⟩
  · simp [startupTrace, loginTrace, teardownTrace, List.countP_cons, hc, Event.isWriteFile]
  · simp [startupTrace, loginTrace, teardownTrace, List.countP_cons, hc, Event.isStart]
  · simp [startupTrace, loginTrace, teardownTrace, List.countP_cons, hc, Event.isSignal]
  · simp [startupTrace, loginTrace, teardownTrace, List.countP_cons, hc, Event.isWait]
  · simp [startupTrace, loginTrace, teardownTrace, List.countP_cons, hc, Event.isRemove]
  · simp [teardownTrace]
  · exact ⟨[], [.print "Starting up the temporary docker daemon\n"], _, by
      simp [startupTrace, loginTrace, teardownTrace]; rfl⟩
  · exact ⟨startupTrace pre.length ++ loginTrace registry registryUsername registryPassword ++
      (teardownTrace registry).take 6, [],
      [.print "Waiting for the containerd and docker plugins to shutdown\n", .sleep 15], by
      simp [startupTrace, loginTrace, teardownTrace]⟩

theorem installDockerPlugins_all_steps_succeed_witness :
    (installDockerPlugins
      ⟨none, none, [some (.exitError 1), none], none, none, some (.other "no such process"),
        none, some (.other "read-only file system")⟩ "reg.example" "user" "secret").result =
      .ret none ∧
    (installDockerPlugins
      ⟨none, none, [some (.exitError 1), none], none, none, some (.other "no such process"),
        none, some (.other "read-only file system")⟩ "reg.example" "user" "secret").trace.countP
      Event.isRemove = 1 :=
  have h := installDockerPlugins_all_steps_succeed
    ⟨none, none, [some (.exitError 1), none], none, none, some (.other "no such process"),
      none, some (.other "read-only file system")⟩ "reg.example" "user" "secret"
    [some (.exitError 1)] [] rfl rfl rfl (by decide) rfl rfl rfl
  ⟨h.1, h.2.2.2.2.2.1⟩

/-- Claim C4. When the config write, the daemon start and the readiness wait
succeed and `dockerLogin` fails with `e`, `installDockerPlugins` returns
exactly `e`; the login command is its last effect, and none of its effects is
an effect of `installDockerPlugin`, a 15-second sleep, a signal, a wait or a
file removal. -/
theorem installDockerPlugins_login_failure_halts (env : Env)
    (registry registryUsername registryPassword : String) (pre rest : List error) (e : GoError)
    (hw : env.writeFile = none) (hs : env.start = none)
    (hp : env.probes = pre ++ none :: rest) (hpre : ∀ r ∈ pre, isExitError r = true)
    (hl : env.login = some e) :
    (installDockerPlugins env registry registryUsername registryPassword).result =
      .ret (some e) ∧
    (installDockerPlugins env registry registryUsername registryPassword).trace.getLast? =
      some (.run (dockerLoginCmd "unix:///dockerd.install.sock" registry registryUsername
        registryPassword)) ∧
    ∀ ev ∈ (installDockerPlugins env registry registryUsername registryPassword).trace,
      (∀ r dockerHost pluginAlias image arguments,
        ev ∉ (installDockerPlugin r dockerHost pluginAlias image arguments).trace) ∧
      ev ≠ .sleep 15 ∧ ev.isSignal = false ∧ ev.isWait = false ∧ ev.isRemove = false := by
  rw [installDockerPlugins_run_login_failure env registry registryUsername registryPassword
    pre rest e hw hs hp hpre hl]
  refine ⟨rfl, by simp [loginTrace], ?_⟩
  intro ev hev
  simp only [startupTrace, loginTrace, List.mem_append, List.mem_cons, List.mem_singleton,
    List.not_mem_nil, or_false] at hev
  have hcases : ev = .writeFile "/dockerd.install.json" "\x7b\x7d" 0o644 ∨
      ev = .print "Starting up the temporary docker daemon\n" ∨
      ev = .start (dockerdCmd "/dockerd.install.json" "unix:///dockerd.install.sock") ∨
      ev = .run (dockerInfoCmd "unix:///dockerd.install.sock") ∨ ev = .sleep 1 ∨
      ev = .print ("Logging in the " ++ registry ++ " registry\n") ∨
      ev = .run (dockerLoginCmd "unix:///dockerd.install.sock" registry registryUsername
        registryPassword) := by
    rcases hev with (((h | h | h) | h) | h) | h | h
    · exact Or.inl h
    · exact Or.inr (Or.inl h)
    · exact Or.inr (Or.inr (Or.inl h))
    · rcases mem_retryTrace _ _ _ h with h | h
      · exact Or.inr (Or.inr (Or.inr (Or.inl h)))
      · exact Or.inr (Or.inr (Or.inr (Or.inr (Or.inl h))))
    · exact Or.inr (Or.inr (Or.inr (Or.inl h)))
    · exact Or.inr (Or.inr (Or.inr (Or.inr (Or.inr (Or.inl h)))))
    · exact Or.inr (Or.inr (Or.inr (Or.inr (Or.inr (Or.inr h)))))
  rcases hcases with h | h | h | h | h | h | h <;> subst h <;>
    simp [installDockerPlugin_eq, dockerPluginInstallCmd, dockerInfoCmd, dockerLoginCmd,
      Event.isSignal, Event.isWait, Event.isRemove]

theorem installDockerPlugins_login_failure_halts_witness :
    (installDockerPlugins
      ⟨none, none, [some (.exitError 1), none], some (.exitError 1), none, none, none, none⟩
      "reg.example" "user" "secret").result = .ret (some (.exitError 1)) ∧
    (installDockerPlugins
      ⟨none, none, [some (.exitError 1), none], some (.exitError 1), none, none, none, none⟩
      "reg.example" "user" "secret").trace.getLast? =
      some (.run (dockerLoginCmd "unix:///dockerd.install.sock" "reg.example" "user"
        "secret")) :=
  have h := installDockerPlugins_login_failure_halts
    ⟨none, none, [some (.exitError 1), none], some (.exitError 1), none, none, none, none⟩
    "reg.example" "user" "secret" [some (.exitError 1)] [] (.exitError 1) rfl rfl rfl
    (by decide) rfl
  ⟨h.1, h.2.1⟩

/-- Claim C6, counterexample. Every step succeeds except the removal of the
config artifact, which fails with an error other than "not found";
`installDockerPlugins` nevertheless returns `nil`. -/
theorem installDockerPlugins_remove_failure_not_fatal :
    os.IsNotExist (some (.other "read-only file system")) = false ∧
    (installDockerPlugins
      ⟨none, none, [none], none, none, none, none, some (.other "read-only file system")⟩
      "reg.example" "user" "secret").result = .ret none ∧
    Event.remove "/dockerd.install.json" ∈
      (installDockerPlugins
        ⟨none, none, [none], none, none, none, none, some (.other "read-only file system")⟩
        "reg.example" "user" "secret").trace := by
  have h := installDockerPlugins_run_success
    ⟨none, none, [none], none, none, none, none, some (.other "read-only file system")⟩
    "reg.example" "user" "secret" [] [] rfl rfl rfl (by simp) rfl rfl rfl
  rw [h]
  exact ⟨rfl, rfl, by simp [teardownTrace]⟩

theorem installDockerPlugins_result_remove_irrelevant (env : Env) (r : error)
    (registry registryUsername registryPassword : String) :
    (installDockerPlugins { env with remove := r } registry registryUsername
      registryPassword).result =
    (installDockerPlugins env registry registryUsername registryPassword).result := by
  rcases env with ⟨w, st, pr, l, i, sg, wt, rm⟩
  rcases hm : waitForDockerDaemon pr "unix:///dockerd.install.sock" with ⟨res, tr⟩
  rcases w with _ | e
  swap
  · simp [installDockerPlugins, ioutil.WriteFile]
  rcases st with _ | e
  swap
  · simp [installDockerPlugins, ioutil.WriteFile, fmt.Println, Cmd.Start]
  rcases res with (_ | e) | _ | v
  rotate_left
  · simp [installDockerPlugins, ioutil.WriteFile, fmt.Println, Cmd.Start, hm]
  · simp [installDockerPlugins, ioutil.WriteFile, fmt.Println, Cmd.Start, hm]
  · simp [installDockerPlugins, ioutil.WriteFile, fmt.Println, Cmd.Start, hm]
  rcases l with _ | e
  swap
  · simp [installDockerPlugins, ioutil.WriteFile, fmt.Println, fmt.Printf, Cmd.Start, hm,
      dockerLogin_eq]
  rcases i with _ | e
  swap
  · simp [installDockerPlugins, ioutil.WriteFile, fmt.Println, fmt.Printf, Cmd.Start, hm,
      dockerLogin_eq, installDockerPlugin_eq]
  rcases wt with _ | e <;>
    simp [installDockerPlugins, ioutil.WriteFile, fmt.Println, fmt.Printf, Cmd.Start,
      Cmd.Signal, Cmd.Wait, os.Remove, time.Sleep, hm, dockerLogin_eq, installDockerPlugin_eq]

/-- Claim C6, amended. A failure `e` of the config-artifact write is fatal:
`installDockerPlugins` returns `e` and does nothing else. The outcome of the
config-artifact removal is discarded: replacing it by any other outcome never
changes what `installDockerPlugins` returns. -/
theorem installDockerPlugins_write_failure_fatal (env : Env)
    (registry registryUsername registryPassword : String) :
    (∀ e, env.writeFile = some e →
      installDockerPlugins env registry registryUsername registryPassword =
        ⟨.ret (some e), [.writeFile "/dockerd.install.json" "\x7b\x7d" 0o644]⟩) ∧
    (∀ r, (installDockerPlugins { env with remove := r } registry registryUsername
        registryPassword).result =
      (installDockerPlugins env registry registryUsername registryPassword).result) := by
  refine ⟨fun e he => ?_, fun r =>
    installDockerPlugins_result_remove_irrelevant env r registry registryUsername
      registryPassword⟩
  simp [installDockerPlugins, ioutil.WriteFile, he]

theorem installDockerPlugins_write_failure_fatal_witness :
    installDockerPlugins
      ⟨some (.other "no space left on device"), none, [none], none, none, none, none, none⟩
      "reg.example" "user" "secret" =
      ⟨.ret (some (.other "no space left on device")),
        [.writeFile "/dockerd.install.json" "\x7b\x7d" 0o644]⟩ :=
  (installDockerPlugins_write_failure_fatal
    ⟨some (.other "no space left on device"), none, [none], none, none, none, none, none⟩
    "reg.example" "user" "secret").1 (.other "no space left on device") rfl

/-! ## The docker client calls -/

/-- Claim C1, counterexample. With a password equal to the username the
argument list of the spawned login process contains the password. -/
theorem dockerLogin_args_may_contain_password :
    (dockerLogin none "unix:///s" "reg.example" "hunter2" "hunter2").trace =
      [.run (dockerLoginCmd "unix:///s" "reg.example" "hunter2" "hunter2")] ∧
    "hunter2" ∈ (dockerLoginCmd "unix:///s" "reg.example" "hunter2" "hunter2").args := by
  refine ⟨rfl, ?_⟩
  simp [dockerLoginCmd]

/-- Claim C1, amended. `dockerLogin` spawns exactly one process. Its
standard-input payload is exactly the password. Its argument list is
`--host <endpoint> login --username <username> --password-stdin <registry>`: it
is the same for every password, and it has the password among its elements
only when the password is equal to the endpoint, the username, the registry
address or one of the four fixed words. -/
theorem dockerLogin_password_only_on_stdin (r : error)
    (dockerHost registry username password : String) :
    ∃ cmd : Cmd,
      (dockerLogin r dockerHost registry username password).trace = [.run cmd] ∧
      cmd.stdin = some password ∧
      cmd.args = ["--host", dockerHost, "login", "--username", username, "--password-stdin",
        registry] ∧
      (∀ password2 : String,
        ∃ cmd2 : Cmd, (dockerLogin r dockerHost registry username password2).trace = [.run cmd2] ∧
          cmd2.args = cmd.args) ∧
      (password ∉ ["--host", "login", "--username", "--password-stdin", dockerHost, username,
          registry] → password ∉ cmd.args) := by
  refine ⟨dockerLoginCmd dockerHost registry username password, rfl, rfl, rfl,
    fun password2 => ⟨dockerLoginCmd dockerHost registry username password2, rfl, rfl⟩, ?_⟩
  intro h
  simp only [List.mem_cons, List.mem_singleton, List.not_mem_nil, or_false, not_or] at h
  simp [dockerLoginCmd, h]

theorem dockerLogin_password_only_on_stdin_witness :
    ∃ cmd : Cmd,
      (dockerLogin none "unix:///s" "reg.example" "user" "hunter2").trace = [.run cmd] ∧
      cmd.stdin = some "hunter2" ∧ "hunter2" ∉ cmd.args := by
  obtain ⟨cmd, h1, h2, _, _, h5⟩ :=
    dockerLogin_password_only_on_stdin none "unix:///s" "reg.example" "user" "hunter2"
  exact ⟨cmd, h1, h2, h5 (by decide)⟩

/-- Claim C7. `installDockerPlugin` spawns exactly one process, `docker`, whose
argument list is `--host <endpoint> plugin install --grant-all-permissions
--alias <alias> <image>` followed by the extra arguments unchanged and in
order; the flag `--grant-all-permissions` is the fifth argument whatever the
inputs. -/
theorem installDockerPlugin_args (r : error) (dockerHost pluginAlias image : String)
    (arguments : List String) :
    ∃ cmd : Cmd,
      installDockerPlugin r dockerHost pluginAlias image arguments = ⟨.ret r, [.run cmd]⟩ ∧
      cmd.path = "/usr/local/bin/docker" ∧
      cmd.args = ["--host", dockerHost, "plugin", "install", "--grant-all-permissions",
        "--alias", pluginAlias, image] ++ arguments ∧
      cmd.args.drop 8 = arguments ∧
      cmd.args[4]? = some "--grant-all-permissions" ∧
      "--grant-all-permissions" ∈ cmd.args :=
  ⟨dockerPluginInstallCmd dockerHost pluginAlias image arguments, rfl, rfl, rfl, rfl, rfl, by
    simp [dockerPluginInstallCmd]⟩

/-! ## The reboot watcher -/

theorem fileExists_marker (m : Marker) (filename : String) :
    fileExists m.stat filename = ⟨.ret (decide (m = .file)), [.stat filename]⟩ := by
  cases m <;> rfl

theorem rebootWatchLoop_nil (reboot : error) :
    rebootWatchLoop reboot [] = ⟨.blocked, [.stat "/worker/reboot"]⟩ := rfl

theorem rebootWatchLoop_cons_file (reboot : error) (stats : List (Option os.FileInfo × error)) :
    rebootWatchLoop reboot (Marker.file.stat :: stats) =
      ⟨(match reboot with
        | none => .ret ()
        | some e => .panic (.err e)), [.stat "/worker/reboot", .run rebootCmd]⟩ := by
  cases reboot <;> rfl

theorem rebootWatchLoop_cons_other (reboot : error) (m : Marker) (hm : m ≠ .file)
    (stats : List (Option os.FileInfo × error)) :
    rebootWatchLoop reboot (m.stat :: stats) =
      ⟨(rebootWatchLoop reboot stats).result,
        .stat "/worker/reboot" :: .sleep 1 :: (rebootWatchLoop reboot stats).trace⟩ := by
  cases m with
  | file => exact absurd rfl hm
  | absent => rfl
  | directory => rfl

theorem rebootWatchLoop_append (reboot : error) (pre : List Marker)
    (hpre : ∀ m ∈ pre, m ≠ .file) (stats : List (Option os.FileInfo × error)) :
    rebootWatchLoop reboot (pre.map Marker.stat ++ stats) =
      ⟨(rebootWatchLoop reboot stats).result,
        markerPollTrace pre.length ++ (rebootWatchLoop reboot stats).trace⟩ := by
  induction pre with
  | nil => simp [markerPollTrace]
  | cons m pre ih =>
    have hm : m ≠ .file := hpre m (List.mem_cons_self _ _)
    have ih' := ih (fun x hx => hpre x (List.mem_cons_of_mem _ hx))
    rw [List.map_cons, List.cons_append, rebootWatchLoop_cons_other reboot m hm, ih']
    simp [markerPollTrace]

theorem countP_isRun_markerPollTrace (n : Nat) :
    (markerPollTrace n).countP Event.isRun = 0 := by
  induction n with
  | zero => simp [markerPollTrace]
  | succ n ih => simp [markerPollTrace, List.countP_cons, Event.isRun, ih]

theorem rebootWatch_eq (reboot : error) (stats : List (Option os.FileInfo × error)) :
    rebootWatch reboot stats =
      ⟨(match (rebootWatchLoop reboot stats).result with
        | .ret _ => .ret ()
        | .blocked => .blocked
        | .panic v => .panic v),
        .print "Starting Reboot Watcher\n" :: ((rebootWatchLoop reboot stats).trace ++
          (match (rebootWatchLoop reboot stats).result with
            | .ret _ => [.print "Rebooting\n"]
            | _ => []))⟩ := by
  rcases h : rebootWatchLoop reboot stats with ⟨res, tr⟩
  cases res <;> simp [rebootWatch, fmt.Println, h, M.emit]

/-- Claim C5. If the marker is first seen as a non-directory at poll number
`pre.length` (every earlier poll sees it absent or as a directory),
`rebootWatch` sleeps one second after each earlier poll, runs the reboot
command exactly once at that poll and polls no more, whatever later polls
would see: it returns when the command succeeds and panics with the
command's error otherwise. If every poll sees the marker absent or as a
directory, the reboot command is never run and the watcher goes on polling. -/
theorem rebootWatch_triggers_exactly_once (reboot : error) (pre post ms : List Marker)
    (hpre : ∀ m ∈ pre, m ≠ .file) (hms : ∀ m ∈ ms, m ≠ .file) :
    (rebootWatch reboot ((pre ++ .file :: post).map Marker.stat)).trace =
      .print "Starting Reboot Watcher\n" :: (markerPollTrace pre.length ++
        [.stat "/worker/reboot", .run rebootCmd] ++
        (if reboot = none then [.print "Rebooting\n"] else [])) ∧
    (rebootWatch reboot ((pre ++ .file :: post).map Marker.stat)).trace.countP Event.isRun = 1 ∧
    (rebootWatch reboot ((pre ++ .file :: post).map Marker.stat)).result =
      (match reboot with
        | none => .ret ()
        | some e => .panic (.err e)) ∧
    (rebootWatch reboot (ms.map Marker.stat)).trace =
      .print "Starting Reboot Watcher\n" :: (markerPollTrace ms.length ++
        [.stat "/worker/reboot"]) ∧
    (rebootWatch reboot (ms.map Marker.stat)).trace.countP Event.isRun = 0 ∧
    (rebootWatch reboot (ms.map Marker.stat)).result = .blocked := by
  have h1 : rebootWatchLoop reboot ((pre ++ .file :: post).map Marker.stat) =
      ⟨(match reboot with
        | none => .ret ()
        | some e => .panic (.err e)),
        markerPollTrace pre.length ++ [.stat "/worker/reboot", .run rebootCmd]⟩ := by
    rw [List.map_append, List.map_cons, rebootWatchLoop_append reboot pre hpre,
      rebootWatchLoop_cons_file]
  have h2 : rebootWatchLoop reboot (ms.map Marker.stat) =
      ⟨.blocked, markerPollTrace ms.length ++ [.stat "/worker/reboot"]⟩ := by
    have h := rebootWatchLoop_append reboot ms hms []
    rw [List.append_nil] at h
    rw [h, rebootWatchLoop_nil]
  rw [rebootWatch_eq, rebootWatch_eq, h1, h2]
  have hc := countP_isRun_markerPollTrace
  cases reboot <;> simp [List.countP_cons, hc, Event.isRun]

theorem rebootWatch_triggers_exactly_once_witness :
    (rebootWatch none
      ([Marker.absent, .directory, .file, .file, .file].map Marker.stat)).trace =
      [.print "Starting Reboot Watcher\n", .stat "/worker/reboot", .sleep 1,
        .stat "/worker/reboot", .sleep 1, .stat "/worker/reboot", .run rebootCmd,
        .print "Rebooting\n"] ∧
    (rebootWatch none ([Marker.directory, .absent].map Marker.stat)).result = .blocked :=
  have h := rebootWatch_triggers_exactly_once none [.absent, .directory] [.file, .file]
    [.directory, .absent] (by decide) (by decide)
  ⟨h.1, h.2.2.2.2.2⟩

/-! ## The kernel command line -/

theorem splitChars_ne_nil (sep : Char) (s : List Char) : splitChars sep s ≠ [] := by
  induction s with
  | nil => simp [splitChars]
  | cons c cs ih =>
    unfold splitChars
    split
    · simp
    · split <;> simp

theorem splitChars_zero (sep : Char) (s : List Char) :
    (splitChars sep s)[0]? = some (s.takeWhile (fun c => c != sep)) := by
  induction s with
  | nil => simp [splitChars]
  | cons c cs ih =>
    unfold splitChars
    by_cases h : c = sep
    · simp [h]
    · rw [if_neg h]
      cases hs : splitChars sep cs with
      | nil => exact absurd hs (splitChars_ne_nil sep cs)
      | cons w ws =>
        rw [hs] at ih
        simp at ih
        simp [List.takeWhile_cons, h, ih]

theorem splitChars_one (sep : Char) (s : List Char) :
    (splitChars sep s)[1]? =
      if sep ∈ s then
        some (((s.dropWhile (fun c => c != sep)).drop 1).takeWhile (fun c => c != sep))
      else none := by
  induction s with
  | nil => simp [splitChars]
  | cons c cs ih =>
    unfold splitChars
    by_cases h : c = sep
    · have h0 := splitChars_zero sep cs
      simp [h, List.dropWhile_cons] at h0 ⊢
      exact h0
    · rw [if_neg h]
      cases hs : splitChars sep cs with
      | nil => exact absurd hs (splitChars_ne_nil sep cs)
      | cons w ws =>
        rw [hs] at ih
        have h' : ¬ sep = c := fun e => h e.symm
        simp [List.dropWhile_cons, h, h'] at ih ⊢
        exact ih

theorem Split_zero (tok : String) : (strings.Split tok '=')[0]? = some (tokenKey tok) := by
  simp [strings.Split, splitChars_zero, tokenKey]

theorem Split_one (tok : String) :
    (strings.Split tok '=')[1]? = if '=' ∈ tok.data then some (tokenValue tok) else none := by
  simp only [strings.Split, List.getElem?_map, splitChars_one, tokenValue]
  split <;> simp

theorem Split_length_ne_zero (tok : String) : (strings.Split tok '=').length ≠ 0 := by
  simp [strings.Split, splitChars_ne_nil]

/-- The loop body in terms of the key and the value of the token. -/
theorem parseCmdLineStep_eq (cfg : tinkConfig) (tok : String) :
    parseCmdLineStep cfg tok =
      if tokenKey tok = "docker_registry" then
        (if '=' ∈ tok.data then some { cfg with registry := tokenValue tok } else none)
      else if tokenKey tok = "registry_username" then
        (if '=' ∈ tok.data then some { cfg with registryUsername := tokenValue tok } else none)
      else if tokenKey tok = "registry_password" then
        (if '=' ∈ tok.data then some { cfg with registryPassword := tokenValue tok } else none)
      else if tokenKey tok = "packet_base_url" then
        (if '=' ∈ tok.data then some { cfg with baseURL := tokenValue tok } else none)
      else if tokenKey tok = "tinkerbell" then
        (if '=' ∈ tok.data then some { cfg with tinkerbell := tokenValue tok } else none)
      else some cfg := by
  unfold parseCmdLineStep
  simp only [if_neg (Split_length_ne_zero tok), Split_zero, Split_one]
  by_cases he : '=' ∈ tok.data <;> simp [he]

theorem recognizedKeys_no_eq (tok : String) (h : tok ∈ recognizedKeys) : '=' ∉ tok.data := by
  simp only [recognizedKeys, List.mem_cons, List.mem_singleton, List.not_mem_nil, or_false] at h
  rcases h with h | h | h | h | h <;> subst h <;> decide

theorem tokenKey_of_no_eq (tok : String) (h : '=' ∉ tok.data) : tokenKey tok = tok := by
  have h' : tok.data.takeWhile (fun c => c != '=') = tok.data := by
    rw [List.takeWhile_eq_self_iff]
    intro c hc
    have : c ≠ '=' := fun e => h (e ▸ hc)
    simpa using this
  unfold tokenKey
  rw [h']

theorem tokenKey_mem_iff (tok : String) :
    tokenKey tok ∈ recognizedKeys ↔
      tokenKey tok = "docker_registry" ∨ tokenKey tok = "registry_username" ∨
      tokenKey tok = "registry_password" ∨ tokenKey tok = "packet_base_url" ∨
      tokenKey tok = "tinkerbell" := by
  simp [recognizedKeys]

/-- The loop body panics exactly on a bare recognised key. -/
theorem parseCmdLineStep_isSome (cfg : tinkConfig) (tok : String) :
    (parseCmdLineStep cfg tok).isSome = true ↔ tok ∉ recognizedKeys := by
  by_cases he : '=' ∈ tok.data
  · have hn : tok ∉ recognizedKeys := fun h => recognizedKeys_no_eq tok h he
    simp only [hn, not_false_eq_true, iff_true]
    rw [parseCmdLineStep_eq]
    simp only [he, if_true]
    split_ifs <;> rfl
  · have hk := tokenKey_of_no_eq tok he
    rw [parseCmdLineStep_eq]
    simp only [he, if_false, hk]
    by_cases hm : tok ∈ recognizedKeys
    · have hm' := hm
      simp only [recognizedKeys, List.mem_cons, List.mem_singleton, List.not_mem_nil,
        or_false] at hm'
      simp only [hm, not_true_eq_false, iff_false]
      rcases hm' with h | h | h | h | h <;> subst h <;> simp
    · have hm' := hm
      simp only [recognizedKeys, List.mem_cons, List.mem_singleton, List.not_mem_nil,
        or_false, not_or] at hm'
      simp [hm, hm'.1, hm'.2.1, hm'.2.2.1, hm'.2.2.2.1, hm'.2.2.2.2]

/-- The loop body leaves the configuration alone on an unrecognised key. -/
theorem parseCmdLineStep_unrecognized (cfg : tinkConfig) (tok : String)
    (h : tokenKey tok ∉ recognizedKeys) : parseCmdLineStep cfg tok = some cfg := by
  rw [tokenKey_mem_iff] at h
  simp only [not_or] at h
  rw [parseCmdLineStep_eq]
  simp [h.1, h.2.1, h.2.2.1, h.2.2.2.1, h.2.2.2.2]

theorem foldlM_parseCmdLineStep_isSome (cmdLines : List String) (cfg : tinkConfig) :
    (cmdLines.foldlM parseCmdLineStep cfg).isSome = true ↔
      ∀ tok ∈ cmdLines, tok ∉ recognizedKeys := by
  induction cmdLines generalizing cfg with
  | nil => simp
  | cons tok rest ih =>
    rw [List.foldlM_cons]
    cases hstep : parseCmdLineStep cfg tok with
    | none =>
      have hs := parseCmdLineStep_isSome cfg tok
      rw [hstep] at hs
      have hmem : tok ∈ recognizedKeys := by
        by_contra hc
        exact absurd (hs.2 hc) (by simp)
      simp [hmem]
    | some cfg2 =>
      have hs := parseCmdLineStep_isSome cfg tok
      rw [hstep] at hs
      have hmem : tok ∉ recognizedKeys := hs.1 rfl
      simp [hmem, ih cfg2]

theorem foldlM_parseCmdLineStep_filter (cmdLines : List String) (cfg : tinkConfig) :
    (cmdLines.filter (fun tok => decide (tokenKey tok ∈ recognizedKeys))).foldlM
        parseCmdLineStep cfg =
      cmdLines.foldlM parseCmdLineStep cfg := by
  induction cmdLines generalizing cfg with
  | nil => rfl
  | cons tok rest ih =>
    by_cases h : tokenKey tok ∈ recognizedKeys
    · rw [List.filter_cons_of_pos (by simpa using h), List.foldlM_cons, List.foldlM_cons]
      cases parseCmdLineStep cfg tok with
      | none => rfl
      | some cfg2 => exact ih cfg2
    · rw [List.filter_cons_of_neg (by simpa using h), List.foldlM_cons,
        parseCmdLineStep_unrecognized cfg tok h]
      exact ih cfg

/-- The loop body keeps every field whose key is not the key of the token. -/
theorem parseCmdLineStep_other_field (k : String) (field : tinkConfig → String)
    (hk : (k, field) ∈ fieldTable) (cfg cfg2 : tinkConfig) (tok : String)
    (hstep : parseCmdLineStep cfg tok = some cfg2) (hne : tokenKey tok ≠ k) :
    field cfg2 = field cfg := by
  rw [parseCmdLineStep_eq] at hstep
  simp only [fieldTable, List.mem_cons, List.mem_singleton, List.not_mem_nil, or_false,
    Prod.mk.injEq] at hk
  rcases hk with ⟨h1, h2⟩ | ⟨h1, h2⟩ | ⟨h1, h2⟩ | ⟨h1, h2⟩ | ⟨h1, h2⟩ <;> subst h1 <;> subst h2 <;>
    split_ifs at hstep <;> simp_all <;> subst hstep <;> rfl

/-- The loop body sets the field of the token's key to the token's value. -/
theorem parseCmdLineStep_own_field (k : String) (field : tinkConfig → String)
    (hk : (k, field) ∈ fieldTable) (cfg cfg2 : tinkConfig) (tok : String)
    (hstep : parseCmdLineStep cfg tok = some cfg2) (heq : tokenKey tok = k) :
    field cfg2 = tokenValue tok := by
  rw [parseCmdLineStep_eq] at hstep
  simp only [fieldTable, List.mem_cons, List.mem_singleton, List.not_mem_nil, or_false,
    Prod.mk.injEq] at hk
  rcases hk with ⟨h1, h2⟩ | ⟨h1, h2⟩ | ⟨h1, h2⟩ | ⟨h1, h2⟩ | ⟨h1, h2⟩ <;> subst h1 <;> subst h2 <;>
    simp [heq] at hstep <;> rw [← hstep.2]

theorem foldlM_parseCmdLineStep_other_field (k : String) (field : tinkConfig → String)
    (hk : (k, field) ∈ fieldTable) (cmdLines : List String) (cfg cfg2 : tinkConfig)
    (hrun : cmdLines.foldlM parseCmdLineStep cfg = some cfg2)
    (hne : ∀ tok ∈ cmdLines, tokenKey tok ≠ k) : field cfg2 = field cfg := by
  induction cmdLines generalizing cfg with
  | nil =>
    simp at hrun
    rw [hrun]
  | cons tok rest ih =>
    rw [List.foldlM_cons] at hrun
    cases hstep : parseCmdLineStep cfg tok with
    | none => simp [hstep] at hrun
    | some cfg1 =>
      rw [hstep] at hrun
      have h1 := parseCmdLineStep_other_field k field hk cfg cfg1 tok hstep
        (hne tok (List.mem_cons_self _ _))
      have h2 := ih cfg1 hrun (fun t ht => hne t (List.mem_cons_of_mem _ ht))
      rw [h2, h1]

theorem fieldTable_key_recognized (k : String) (field : tinkConfig → String)
    (hk : (k, field) ∈ fieldTable) : k ∈ recognizedKeys := by
  simp only [fieldTable, List.mem_cons, List.mem_singleton, List.not_mem_nil, or_false,
    Prod.mk.injEq] at hk
  rcases hk with ⟨h1, _⟩ | ⟨h1, _⟩ | ⟨h1, _⟩ | ⟨h1, _⟩ | ⟨h1, _⟩ <;> subst h1 <;>
    simp [recognizedKeys]

theorem fieldTable_default (k : String) (field : tinkConfig → String)
    (hk : (k, field) ∈ fieldTable) : field {} = "" := by
  simp only [fieldTable, List.mem_cons, List.mem_singleton, List.not_mem_nil, or_false,
    Prod.mk.injEq] at hk
  rcases hk with ⟨_, h2⟩ | ⟨_, h2⟩ | ⟨_, h2⟩ | ⟨_, h2⟩ | ⟨_, h2⟩ <;> subst h2 <;> rfl

/-- Claim C8. Tokens whose key is not recognised are ignored: removing all of
them from the list does not change the result of `parseCmdLine` (a
configuration, or the panic). In a returned configuration every field whose
key is the key of no token is the empty string. -/
theorem parseCmdLine_ignores_unrecognized (cmdLines : List String) :
    parseCmdLine (cmdLines.filter (fun tok => decide (tokenKey tok ∈ recognizedKeys))) =
      parseCmdLine cmdLines ∧
    ∀ cfg, parseCmdLine cmdLines = some cfg →
      ∀ k field, (k, field) ∈ fieldTable → (∀ tok ∈ cmdLines, tokenKey tok ≠ k) →
        field cfg = "" := by
  refine ⟨foldlM_parseCmdLineStep_filter cmdLines {}, ?_⟩
  intro cfg hrun k field hk hne
  rw [foldlM_parseCmdLineStep_other_field k field hk cmdLines {} cfg hrun hne]
  exact fieldTable_default k field hk

theorem parseCmdLine_ignores_unrecognized_witness :
    parseCmdLine ["quiet", "docker_registry=reg.example", "console=ttyS0", "=x", ""] =
      some { registry := "reg.example" } ∧
    parseCmdLine ["docker_registry=reg.example"] = some { registry := "reg.example" } ∧
    ({ registry := "reg.example" } : tinkConfig).tinkerbell = "" := by
  have h := parseCmdLine_ignores_unrecognized
    ["quiet", "docker_registry=reg.example", "console=ttyS0", "=x", ""]
  have hrun : parseCmdLine ["quiet", "docker_registry=reg.example", "console=ttyS0", "=x", ""] =
      some { registry := "reg.example" } := by decide
  have hf : (List.filter (fun tok => decide (tokenKey tok ∈ recognizedKeys))
      ["quiet", "docker_registry=reg.example", "console=ttyS0", "=x", ""]) =
      ["docker_registry=reg.example"] := by decide
  refine ⟨hrun, ?_, ?_⟩
  · rw [← hf, h.1, hrun]
  · exact h.2 _ hrun "tinkerbell" tinkConfig.tinkerbell (by simp [fieldTable]) (by decide)

/-- Claim C9. `parseCmdLine` returns a configuration exactly when no token is
a bare recognised key; for a bare recognised key the split has the single
element `cmdLine[0]`, so the read of `cmdLine[1]` is out of range. -/
theorem parseCmdLine_completes_iff (cmdLines : List String) :
    ((parseCmdLine cmdLines).isSome = true ↔ ∀ tok ∈ cmdLines, tok ∉ recognizedKeys) ∧
    (∀ tok ∈ recognizedKeys, strings.Split tok '=' = [tok]) := by
  refine ⟨foldlM_parseCmdLineStep_isSome cmdLines {}, ?_⟩
  decide

theorem parseCmdLine_completes_iff_witness :
    parseCmdLine ["quiet", "tinkerbell", "docker_registry=r"] = none ∧
    (parseCmdLine ["quiet", "tinkerbell=", "docker_registry", "=r"]).isSome = false ∧
    (parseCmdLine ["quiet", "tinkerbell=", "Tinkerbell", "tinkerbell_x", "=r"]).isSome = true := by
  have h1 := (parseCmdLine_completes_iff ["quiet", "tinkerbell", "docker_registry=r"]).1
  have h2 := (parseCmdLine_completes_iff ["quiet", "tinkerbell=", "docker_registry", "=r"]).1
  have h3 := (parseCmdLine_completes_iff
    ["quiet", "tinkerbell=", "Tinkerbell", "tinkerbell_x", "=r"]).1
  refine ⟨?_, ?_, h3.2 (by decide)⟩
  · cases hp : parseCmdLine ["quiet", "tinkerbell", "docker_registry=r"] with
    | none => rfl
    | some cfg =>
      rw [hp] at h1
      exact absurd (h1.1 rfl) (by decide)
  · cases hp : (parseCmdLine ["quiet", "tinkerbell=", "docker_registry", "=r"]).isSome with
    | false => rfl
    | true => exact absurd (h2.1 hp) (by decide)

/-- Claim C10. When `parseCmdLine` returns a configuration, each field is the
value of the last token whose key is the field's key, where the value of a
token is its text between its first and its second `=` (the element
`cmdLine[1]` of the split): later tokens override earlier ones and a value is
cut at its first `=`. -/
theorem parseCmdLine_last_token_wins (k : String) (field : tinkConfig → String)
    (hk : (k, field) ∈ fieldTable) (pre post : List String) (tok : String) (cfg : tinkConfig)
    (hrun : parseCmdLine (pre ++ tok :: post) = some cfg) (hkey : tokenKey tok = k)
    (hlast : ∀ t ∈ post, tokenKey t ≠ k) :
    field cfg = tokenValue tok ∧ (strings.Split tok '=')[1]? = some (field cfg) := by
  unfold parseCmdLine at hrun
  rw [List.foldlM_append] at hrun
  cases hpre : List.foldlM parseCmdLineStep {} pre with
  | none => simp [hpre] at hrun
  | some cfg1 =>
    rw [hpre] at hrun
    change List.foldlM parseCmdLineStep cfg1 (tok :: post) = some cfg at hrun
    rw [List.foldlM_cons] at hrun
    cases hstep : parseCmdLineStep cfg1 tok with
    | none => simp [hstep] at hrun
    | some cfg2 =>
      rw [hstep] at hrun
      have h1 := parseCmdLineStep_own_field k field hk cfg1 cfg2 tok hstep hkey
      have h2 := foldlM_parseCmdLineStep_other_field k field hk post cfg2 cfg hrun hlast
      have hval : field cfg = tokenValue tok := by rw [h2, h1]
      refine ⟨hval, ?_⟩
      have hsome := (parseCmdLineStep_isSome cfg1 tok).1 (by rw [hstep]; rfl)
      have heq : '=' ∈ tok.data := by
        by_contra hc
        have := tokenKey_of_no_eq tok hc
        rw [hkey] at this
        exact hsome (this ▸ fieldTable_key_recognized k field hk)
      rw [Split_one, if_pos heq, hval]

theorem parseCmdLine_last_token_wins_witness :
    parseCmdLine ["registry_password=first", "registry_password=ab=cd", "quiet"] =
      some { registryPassword := "ab" } ∧
    tokenValue "registry_password=ab=cd" = "ab" := by
  have hrun : parseCmdLine ["registry_password=first", "registry_password=ab=cd", "quiet"] =
      some { registryPassword := "ab" } := by decide
  have h := parseCmdLine_last_token_wins "registry_password" tinkConfig.registryPassword
    (by simp [fieldTable]) ["registry_password=first"] ["quiet"] "registry_password=ab=cd"
    { registryPassword := "ab" } hrun (by decide) (by decide)
  exact ⟨hrun, h.1.symm⟩

end TinkDocker
